import Mathlib

/-!
# Verification of the Bollinger-band indicator pipeline (src/BBand.py)

Shallow embedding of the pandas/streamlit script `BBand.py`:

* a `DataFrame` is a list of column names together with a list of rows,
  each row a list of cells;
* a `Cell` is a numeric value, a NaN, or a text cell (carrying what
  `pd.to_numeric(errors = coerce)` would parse it to, if anything);
* `plot_bollinger_bands` embeds the function of the same name
  (lines 17-84): the schema check (line 28), the in-place numeric
  coercion (line 33), the in-place `dropna` (line 34), the rolling
  mean / sample standard deviation columns (lines 37-38) and the two
  band columns (lines 41-42).  Python mutates the caller's frame in
  place, so the embedding is state-passing: the function returns the
  result together with the final state of the frame the caller handed
  in;
* `runShell` embeds the streamlit query block (lines 112-135): the
  empty-data guard, the row count, the plot call and the final summary
  that reads Close / Upper / MA / Lower from the (mutated) frame.

Real-number cells idealize the script's float64 arithmetic; NaN is
modelled by the `Cell.nan` constructor rather than by an IEEE value.
-/

namespace BBand

/-- A cell of a pandas column: a numeric value, a NaN, or a non-numeric
(text) cell.  A text cell carries `some x` when `pd.to_numeric` with
`errors = coerce` would parse it to the number `x`, and `none` when
coercion would turn it into NaN. -/
inductive Cell where
  | num (x : ℝ)
  | nan
  | text (coerced : Option ℝ)
deriving Inhabited

/-- `pd.to_numeric(errors = coerce)` on one cell, with NaN read as "no
value": numbers stay, NaN stays NaN, text becomes its parsed value or
NaN. -/
def Cell.toNumeric : Cell → Option ℝ
  | .num x => some x
  | .nan => none
  | .text c => c

/-- Store an optional float back into a column: `none` is NaN. -/
def ofOption : Option ℝ → Cell
  | some x => .num x
  | none => .nan

/-- Is the cell missing in the sense of `dropna` / `isna` (only NaN is;
text cells are not NA). -/
def Cell.isNA : Cell → Bool
  | .nan => true
  | _ => false

/-- Is the cell an actual number (a defined, non-absent entry). -/
def Cell.isNum : Cell → Bool
  | .num _ => true
  | _ => false

/-- A pandas DataFrame: named columns over a list of rows. -/
structure DataFrame where
  cols : List String
  rows : List (List Cell)
deriving Inhabited

/-- Well-formedness: each row has one cell per column, and column names
are not duplicated. -/
def WF (df : DataFrame) : Prop :=
  (∀ r ∈ df.rows, r.length = df.cols.length) ∧ df.cols.Nodup

/-- `df.empty` in pandas: some axis has length 0. -/
def DataFrame.isEmptyDF (df : DataFrame) : Bool :=
  df.rows.isEmpty || df.cols.isEmpty

/-- The `cols` list of line 25: the five fields the script requires. -/
def requiredCols : List String := ["Open", "High", "Low", "Close", "Volume"]

/-- Column lookup `data[name]`, as the list of that column's cells (NaN
when the name or the cell is missing, which the theorems rule out via
`WF` and the schema check). -/
def getCol (df : DataFrame) (name : String) : List Cell :=
  df.rows.map (fun r => r.getD (df.cols.indexOf name) .nan)

/-- The cell of column `name` at row position `i`. -/
def cellAt (df : DataFrame) (name : String) (i : ℕ) : Cell :=
  (getCol df name).getD i .nan

/-- Column assignment `data[name] = vals`: overwrite the column when the
name exists, append a new column otherwise. -/
def setCol (df : DataFrame) (name : String) (vals : List Cell) : DataFrame :=
  if name ∈ df.cols then
    ⟨df.cols, (df.rows.zip vals).map (fun p => p.1.set (df.cols.indexOf name) p.2)⟩
  else
    ⟨df.cols ++ [name], (df.rows.zip vals).map (fun p => p.1 ++ [p.2])⟩

/-- Line 33, `data[cols] = data[cols].apply(pd.to_numeric, errors=coerce)`,
on one row: each cell sitting under one of the five required column
names is coerced; other cells are untouched. -/
def coerceRow : List String → List Cell → List Cell
  | c :: cs, x :: xs =>
      (if c ∈ requiredCols then ofOption x.toNumeric else x) :: coerceRow cs xs
  | _, r => r

/-- Line 33 on the whole frame. -/
def coerce (df : DataFrame) : DataFrame :=
  ⟨df.cols, df.rows.map (coerceRow df.cols)⟩

/-- The keep-condition of `dropna(subset=cols)` (line 34): no NA among
the five required fields of the row. -/
def rowOK (cols : List String) (r : List Cell) : Bool :=
  requiredCols.all (fun n => !(r.getD (cols.indexOf n) Cell.nan).isNA)

/-- Line 34, `data.dropna(subset=cols, inplace=True)`. -/
def dropna (df : DataFrame) : DataFrame :=
  ⟨df.cols, df.rows.filter (rowOK df.cols)⟩

/-- Lines 33-34 together: the frame the indicator computation runs on. -/
def cleaned (df : DataFrame) : DataFrame := dropna (coerce df)

/-- `data[Close]` viewed as a float-with-NaN series. -/
def closeVals (df : DataFrame) : List (Option ℝ) :=
  (getCol df "Close").map Cell.toNumeric

/-- One entry of `Series.rolling(window=w).mean()` (line 37): NaN until
the window is full (`min_periods` defaults to the window size) or when
the window contains a NaN, otherwise the mean of the `w` trailing
values. -/
noncomputable def rollingMeanCell (w : ℕ) (xs : List (Option ℝ)) (i : ℕ) : Option ℝ :=
  let win := (xs.drop (i + 1 - w)).take w
  if w ≤ i + 1 ∧ win.all Option.isSome then
    some ((win.map (fun o => o.getD 0)).sum / w)
  else none

/-- `Series.rolling(window=w).mean()` (line 37). -/
noncomputable def rollingMean (w : ℕ) (xs : List (Option ℝ)) : List (Option ℝ) :=
  (List.range xs.length).map (rollingMeanCell w xs)

/-- One entry of `Series.rolling(window=w).std()` (line 38): pandas uses
`ddof = 1`, so the divisor is `w - 1` and a window of size 1 yields NaN
(0/0); otherwise the square root of the sample variance of the trailing
window. -/
noncomputable def rollingStdCell (w : ℕ) (xs : List (Option ℝ)) (i : ℕ) : Option ℝ :=
  let win := (xs.drop (i + 1 - w)).take w
  if 2 ≤ w ∧ w ≤ i + 1 ∧ win.all Option.isSome then
    let vals := win.map (fun o => o.getD 0)
    let μ := vals.sum / w
    some (Real.sqrt ((vals.map (fun x => (x - μ) ^ 2)).sum / ((w : ℝ) - 1)))
  else none

/-- `Series.rolling(window=w).std()` (line 38). -/
noncomputable def rollingStd (w : ℕ) (xs : List (Option ℝ)) : List (Option ℝ) :=
  (List.range xs.length).map (rollingStdCell w xs)

/-- Float addition of two cells: NaN propagates.  The columns this is
applied to (MA and STD) hold only numbers and NaN. -/
def cellAdd : Cell → Cell → Cell
  | .num x, .num y => .num (x + y)
  | _, _ => .nan

/-- Float subtraction of two cells: NaN propagates. -/
def cellSub : Cell → Cell → Cell
  | .num x, .num y => .num (x - y)
  | _, _ => .nan

/-- Scalar multiple of a cell (`num_std * data[STD]`): NaN propagates. -/
def cellSMul (k : ℝ) : Cell → Cell
  | .num x => .num (k * x)
  | _ => .nan

/-- Line 37: `data[MA] = data[Close].rolling(window=window).mean()`. -/
noncomputable def withMA (df : DataFrame) (w : ℕ) : DataFrame :=
  setCol df "MA" ((rollingMean w (closeVals df)).map ofOption)

/-- Line 38: `data[STD] = data[Close].rolling(window=window).std()`. -/
noncomputable def withSTD (df : DataFrame) (w : ℕ) : DataFrame :=
  setCol df "STD" ((rollingStd w (closeVals df)).map ofOption)

/-- Line 41: `data[Upper] = data[MA] + (num_std * data[STD])`. -/
noncomputable def withUpper (df : DataFrame) (m : ℝ) : DataFrame :=
  setCol df "Upper"
    (List.zipWith cellAdd (getCol df "MA") ((getCol df "STD").map (cellSMul m)))

/-- Line 42: `data[Lower] = data[MA] - (num_std * data[STD])`. -/
noncomputable def withLower (df : DataFrame) (m : ℝ) : DataFrame :=
  setCol df "Lower"
    (List.zipWith cellSub (getCol df "MA") ((getCol df "STD").map (cellSMul m)))

/-- Lines 33-42: the in-place transformation `plot_bollinger_bands`
performs on the frame when the schema check passes. -/
noncomputable def augment (df : DataFrame) (w : ℕ) (m : ℝ) : DataFrame :=
  withLower (withUpper (withSTD (withMA (cleaned df) w) w) m) m

/-- The schema check of line 28: `set(cols).issubset(data.columns)`. -/
def schemaOK (df : DataFrame) : Bool :=
  requiredCols.all (fun c => df.cols.contains c)

/-- What `plot_bollinger_bands` hands back: `None` together with the
`st.error` message naming the actual columns (lines 29-30), or the
mplfinance figure (line 84, modelled opaquely). -/
inductive PlotResult where
  | schemaError (actualCols : List String)
  | chart
deriving DecidableEq

/-- Lines 17-84, state-passing: the result and the final state of the
caller's frame (Python mutates `data` in place, so on the success path
the caller's frame afterwards is `augment`; on the schema-error path it
is untouched). -/
noncomputable def plot_bollinger_bands (df : DataFrame) (w : ℕ) (m : ℝ) :
    PlotResult × DataFrame :=
  if schemaOK df then (.chart, augment df w m)
  else (.schemaError df.cols, df)

/-- The last row's cell of a column (`data.iloc[-1][name]`). -/
def lastCell (df : DataFrame) (name : String) : Cell :=
  (getCol df name).getLastD .nan

/-- What the streamlit query block shows (lines 112-135). -/
inductive ShellResult where
  | noData
  | plotFailed (rowCount : ℕ)
  | success (rowCount : ℕ) (close upper ma lower : Cell)

/-- Lines 112-135: the guard on `data.empty`, the row count taken before
plotting, the plot call, and on success the summary read from the frame
`plot_bollinger_bands` mutated. -/
noncomputable def runShell (fetched : DataFrame) (w : ℕ) (m : ℝ) : ShellResult :=
  if fetched.isEmptyDF then .noData
  else
    let count := fetched.rows.length
    match plot_bollinger_bands fetched w m with
    | (.schemaError _, _) => .plotFailed count
    | (.chart, d) =>
        .success count (lastCell d "Close") (lastCell d "Upper")
          (lastCell d "MA") (lastCell d "Lower")

/-! ## Spec-side definitions (for comparison with the code) -/

/-- The arithmetic mean of a list, as the spec words it. -/
noncomputable def mean (l : List ℝ) : ℝ := l.sum / l.length

/-- Sample standard deviation with divisor `length - 1`, as the spec
words it. -/
noncomputable def sampleStd (l : List ℝ) : ℝ :=
  Real.sqrt (((l.map (fun x => (x - mean l) ^ 2)).sum) / ((l.length : ℝ) - 1))

/-- The trailing window `[i-w+1 .. i]` of a list. -/
def windowSlice (w i : ℕ) (l : List ℝ) : List ℝ := (l.drop (i + 1 - w)).take w

/-- The close values the indicator computation runs over, as plain
reals (after coercion and `dropna` every Close cell is a number). -/
def cleanCloses (df : DataFrame) : List ℝ :=
  (getCol (cleaned df) "Close").map (fun c => c.toNumeric.getD 0)

/-! ## Basic lemmas about the frame operations -/

theorem length_getCol (df : DataFrame) (name : String) :
    (getCol df name).length = df.rows.length := by
  simp [getCol]

theorem length_coerceRow : ∀ (cols : List String) (r : List Cell),
    (coerceRow cols r).length = r.length
  | [], _ => rfl
  | _ :: _, [] => rfl
  | c :: cs, x :: xs => by
    simp only [coerceRow, List.length_cons, length_coerceRow cs xs]

theorem coerceRow_getD : ∀ (cols : List String) (r : List Cell) (j : ℕ),
    j < cols.length →
    (coerceRow cols r).getD j .nan =
      (if cols.getD j "" ∈ requiredCols then ofOption ((r.getD j .nan).toNumeric)
       else r.getD j .nan)
  | [], _, j, hc => absurd hc (by simp)
  | c :: cs, [], j, _ => by
    cases j <;> simp [coerceRow, Cell.toNumeric, ofOption]
  | c :: cs, x :: xs, 0, _ => by
    simp [coerceRow]
  | c :: cs, x :: xs, j + 1, hc => by
    simpa [coerceRow] using coerceRow_getD cs xs j (by simpa using hc)

theorem cols_coerce (df : DataFrame) : (coerce df).cols = df.cols := rfl

theorem cols_dropna (df : DataFrame) : (dropna df).cols = df.cols := rfl

theorem cols_cleaned (df : DataFrame) : (cleaned df).cols = df.cols := rfl

theorem WF_coerce {df : DataFrame} (h : WF df) : WF (coerce df) := by
  refine ⟨?_, h.2⟩
  intro r hr
  simp only [coerce, List.mem_map] at hr
  obtain ⟨r0, hr0, rfl⟩ := hr
  rw [length_coerceRow]
  exact h.1 r0 hr0

theorem WF_dropna {df : DataFrame} (h : WF df) : WF (dropna df) := by
  refine ⟨?_, h.2⟩
  intro r hr
  exact h.1 r (List.mem_of_mem_filter hr)

theorem WF_cleaned {df : DataFrame} (h : WF df) : WF (cleaned df) :=
  WF_dropna (WF_coerce h)

theorem cols_setCol_of_mem {df : DataFrame} {name : String} (vals : List Cell)
    (h : name ∈ df.cols) : (setCol df name vals).cols = df.cols := by
  simp [setCol, h]

theorem cols_setCol_of_not_mem {df : DataFrame} {name : String} (vals : List Cell)
    (h : name ∉ df.cols) : (setCol df name vals).cols = df.cols ++ [name] := by
  simp [setCol, h]

theorem mem_cols_setCol_self (df : DataFrame) (name : String) (vals : List Cell) :
    name ∈ (setCol df name vals).cols := by
  by_cases h : name ∈ df.cols
  · rw [cols_setCol_of_mem vals h]; exact h
  · rw [cols_setCol_of_not_mem vals h]; simp

theorem mem_cols_setCol {df : DataFrame} {n : String} (name : String) (vals : List Cell)
    (h : n ∈ df.cols) : n ∈ (setCol df name vals).cols := by
  by_cases hm : name ∈ df.cols
  · rw [cols_setCol_of_mem vals hm]; exact h
  · rw [cols_setCol_of_not_mem vals hm]; exact List.mem_append_left _ h

theorem length_rows_setCol (df : DataFrame) (name : String) {vals : List Cell}
    (h : vals.length = df.rows.length) :
    (setCol df name vals).rows.length = df.rows.length := by
  unfold setCol
  split <;> simp [List.length_zip, h]

theorem WF_setCol {df : DataFrame} {name : String} {vals : List Cell}
    (hwf : WF df) (hlen : vals.length = df.rows.length) :
    WF (setCol df name vals) := by
  unfold setCol
  split
  · refine ⟨?_, hwf.2⟩
    intro r hr
    simp only [List.mem_map] at hr
    obtain ⟨p, hp, rfl⟩ := hr
    rw [List.length_set]
    exact hwf.1 p.1 (List.of_mem_zip hp).1
  · next hmem =>
    refine ⟨?_, ?_⟩
    · intro r hr
      simp only [List.mem_map] at hr
      obtain ⟨p, hp, rfl⟩ := hr
      simp [hwf.1 p.1 (List.of_mem_zip hp).1]
    · simpa [List.nodup_append] using ⟨hwf.2, hmem⟩

theorem getD_eq_getElem?_getD {α : Type} (l : List α) (n : ℕ) (d : α) :
    l.getD n d = (l[n]?).getD d := by
  rw [List.getD_eq_getD_get?, List.get?_eq_getElem?]

theorem getCol_setCol_self {df : DataFrame} {name : String} {vals : List Cell}
    (hwf : WF df) (hlen : vals.length = df.rows.length) :
    getCol (setCol df name vals) name = vals := by
  unfold setCol getCol
  split
  · next hmem =>
    apply List.ext_getElem
    · simp [List.length_zip, hlen]
    · intro i h1 h2
      simp only [List.getElem_map, List.getElem_zip]
      have hirows : i < df.rows.length := hlen ▸ h2
      have hrl : (df.rows[i]).length = df.cols.length :=
        hwf.1 _ (List.getElem_mem hirows)
      have hidx : df.cols.indexOf name < df.cols.length :=
        List.indexOf_lt_length.mpr hmem
      rw [getD_eq_getElem?_getD, List.getElem?_set_self (by omega)]
      simp
  · next hmem =>
    apply List.ext_getElem
    · simp [List.length_zip, hlen]
    · intro i h1 h2
      simp only [List.getElem_map, List.getElem_zip]
      have hirows : i < df.rows.length := hlen ▸ h2
      have hrl : (df.rows[i]).length = df.cols.length :=
        hwf.1 _ (List.getElem_mem hirows)
      have hidx : (df.cols ++ [name]).indexOf name = df.cols.length := by
        rw [List.indexOf_append_of_not_mem hmem]
        simp
      have hconcat : (df.rows[i] ++ [vals[i]])[df.cols.length]? = some (vals[i]) := by
        rw [← hrl]
        exact List.getElem?_concat_length _ _
      simp only [getD_eq_getElem?_getD, hidx, hconcat, Option.getD_some]

theorem getCol_setCol_ne {df : DataFrame} {name n : String} {vals : List Cell}
    (hwf : WF df) (hlen : vals.length = df.rows.length)
    (hne : n ≠ name) (hn : n ∈ df.cols) :
    getCol (setCol df name vals) n = getCol df n := by
  unfold setCol getCol
  split
  · next hmem =>
    apply List.ext_getElem
    · simp [List.length_zip, hlen]
    · intro i h1 h2
      simp only [List.getElem_map, List.getElem_zip]
      have hirows : i < df.rows.length := by simpa using h2
      have hrl : (df.rows[i]).length = df.cols.length :=
        hwf.1 _ (List.getElem_mem hirows)
      have hidxn : df.cols.indexOf n < df.cols.length :=
        List.indexOf_lt_length.mpr hn
      have hidxname : df.cols.indexOf name < df.cols.length :=
        List.indexOf_lt_length.mpr hmem
      have hne' : df.cols.indexOf name ≠ df.cols.indexOf n := by
        intro h
        exact hne ((List.indexOf_inj hn hmem).mp h.symm)
      simp only [getD_eq_getElem?_getD, List.getElem?_set_ne hne']
  · next hmem =>
    apply List.ext_getElem
    · simp [List.length_zip, hlen]
    · intro i h1 h2
      simp only [List.getElem_map, List.getElem_zip]
      have hirows : i < df.rows.length := by simpa using h2
      have hrl : (df.rows[i]).length = df.cols.length :=
        hwf.1 _ (List.getElem_mem hirows)
      have hidxn : df.cols.indexOf n < df.cols.length :=
        List.indexOf_lt_length.mpr hn
      have happ : (df.rows[i] ++ [vals[i]])[df.cols.indexOf n]? =
          (df.rows[i])[df.cols.indexOf n]? :=
        List.getElem?_append_left (by omega)
      simp only [List.indexOf_append_of_mem hn, getD_eq_getElem?_getD, happ]

/-! ## Lemmas about the rolling statistics -/

theorem length_rollingMean (w : ℕ) (xs : List (Option ℝ)) :
    (rollingMean w xs).length = xs.length := by
  simp [rollingMean]

theorem length_rollingStd (w : ℕ) (xs : List (Option ℝ)) :
    (rollingStd w xs).length = xs.length := by
  simp [rollingStd]

theorem getElem_rollingMean {w : ℕ} {xs : List (Option ℝ)} {i : ℕ}
    (hi : i < (rollingMean w xs).length) :
    (rollingMean w xs)[i] = rollingMeanCell w xs i := by
  simp [rollingMean]

theorem getElem_rollingStd {w : ℕ} {xs : List (Option ℝ)} {i : ℕ}
    (hi : i < (rollingStd w xs).length) :
    (rollingStd w xs)[i] = rollingStdCell w xs i := by
  simp [rollingStd]

theorem length_window {w i n : ℕ} (hw : w ≤ i + 1) (hi : i < n) (xs : List (Option ℝ))
    (hn : xs.length = n) : ((xs.drop (i + 1 - w)).take w).length = w := by
  simp only [List.length_take, List.length_drop, hn]
  omega

/-! ## The cleaned frame: every required cell is a number -/

theorem list_all_congr {α : Type} {l : List α} {p q : α → Bool}
    (h : ∀ a ∈ l, p a = q a) : l.all p = l.all q := by
  induction l with
  | nil => rfl
  | cons x xs ih =>
    simp only [List.all_cons, h x (by simp), ih (fun a ha => h a (by simp [ha]))]

theorem rowOK_coerce_iff {cols : List String} {r : List Cell} (hc : ∀ n ∈ requiredCols, n ∈ cols) :
    rowOK cols (coerceRow cols r) =
      requiredCols.all (fun n => ((r.getD (cols.indexOf n) .nan).toNumeric).isSome) := by
  unfold rowOK
  apply list_all_congr
  intro n hn
  have hidx : cols.indexOf n < cols.length := List.indexOf_lt_length.mpr (hc n hn)
  rw [coerceRow_getD cols r _ hidx]
  have : cols.getD (cols.indexOf n) "" = n := by
    rw [List.getD_eq_getElem _ _ hidx]
    exact List.getElem_indexOf hidx
  rw [this, if_pos hn]
  cases hval : (r.getD (cols.indexOf n) Cell.nan).toNumeric <;>
    simp [ofOption, Cell.isNA]

theorem required_cell_isNum {df : DataFrame} (hwf : WF df)
    (n : String) (hn : n ∈ requiredCols) (hmem : n ∈ df.cols) :
    ∀ c ∈ getCol (cleaned df) n, c.isNum = true := by
  intro c hc
  simp only [cleaned, dropna, coerce, getCol, List.mem_map] at hc
  obtain ⟨r, hr, rfl⟩ := hc
  have hrok := List.of_mem_filter hr
  have hidx : df.cols.indexOf n < df.cols.length := List.indexOf_lt_length.mpr hmem
  obtain ⟨r0, hr0, rfl⟩ := List.mem_map.mp (List.mem_of_mem_filter hr)
  unfold rowOK at hrok
  rw [List.all_eq_true] at hrok
  have hna := hrok n hn
  rw [coerceRow_getD df.cols r0 _ hidx] at hna ⊢
  have hcname : df.cols.getD (df.cols.indexOf n) "" = n := by
    rw [List.getD_eq_getElem _ _ hidx]
    exact List.getElem_indexOf hidx
  rw [hcname, if_pos hn] at hna ⊢
  cases hval : (r0.getD (df.cols.indexOf n) Cell.nan).toNumeric with
  | none => rw [hval] at hna; simp [ofOption, Cell.isNA] at hna
  | some x => simp [ofOption, Cell.isNum]

theorem schemaOK_iff {df : DataFrame} :
    schemaOK df = true ↔ ∀ n ∈ requiredCols, n ∈ df.cols := by
  simp [schemaOK]

theorem closeVals_cleaned_isSome {df : DataFrame} (hwf : WF df)
    (hok : schemaOK df = true) :
    ∀ o ∈ closeVals (cleaned df), o.isSome = true := by
  intro o ho
  simp only [closeVals, List.mem_map] at ho
  obtain ⟨c, hc, rfl⟩ := ho
  have hmem : "Close" ∈ df.cols := schemaOK_iff.mp hok "Close" (by simp [requiredCols])
  have := required_cell_isNum hwf "Close" (by simp [requiredCols]) hmem c hc
  cases c <;> simp [Cell.isNum] at this ⊢ <;> simp [Cell.toNumeric]

/-! ## Column structure of the augmented frame -/

theorem requiredCols_ne_indicators :
    ∀ n ∈ requiredCols, n ≠ "MA" ∧ n ≠ "STD" ∧ n ≠ "Upper" ∧ n ≠ "Lower" := by
  decide

theorem length_closeVals (df : DataFrame) :
    (closeVals df).length = df.rows.length := by
  simp [closeVals, length_getCol]

theorem augment_facts (df : DataFrame) (w : ℕ) (m : ℝ)
    (hwf : WF df) (hok : schemaOK df = true) :
    getCol (augment df w m) "MA" = (rollingMean w (closeVals (cleaned df))).map ofOption ∧
    getCol (augment df w m) "STD" = (rollingStd w (closeVals (cleaned df))).map ofOption ∧
    getCol (augment df w m) "Upper" =
      List.zipWith cellAdd ((rollingMean w (closeVals (cleaned df))).map ofOption)
        (((rollingStd w (closeVals (cleaned df))).map ofOption).map (cellSMul m)) ∧
    getCol (augment df w m) "Lower" =
      List.zipWith cellSub ((rollingMean w (closeVals (cleaned df))).map ofOption)
        (((rollingStd w (closeVals (cleaned df))).map ofOption).map (cellSMul m)) ∧
    (∀ n ∈ requiredCols, getCol (augment df w m) n = getCol (cleaned df) n) ∧
    WF (augment df w m) ∧
    (augment df w m).rows.length = (cleaned df).rows.length ∧
    (∀ n ∈ df.cols, n ∈ (augment df w m).cols) ∧
    "MA" ∈ (augment df w m).cols ∧ "STD" ∈ (augment df w m).cols ∧
    "Upper" ∈ (augment df w m).cols ∧ "Lower" ∈ (augment df w m).cols := by
  have hwf0 : WF (cleaned df) := WF_cleaned hwf
  have hreq0 : ∀ n ∈ requiredCols, n ∈ (cleaned df).cols := by
    intro n hn
    rw [cols_cleaned]
    exact schemaOK_iff.mp hok n hn
  have hdf0 : ∀ n ∈ df.cols, n ∈ (cleaned df).cols := by
    intro n hn
    rw [cols_cleaned]
    exact hn
  have hlenMA : ((rollingMean w (closeVals (cleaned df))).map ofOption).length =
      (cleaned df).rows.length := by
    simp [length_rollingMean, length_closeVals]
  -- stage 1: the MA column (line 37)
  have hwf1 : WF (withMA (cleaned df) w) := WF_setCol hwf0 hlenMA
  have hrows1 : (withMA (cleaned df) w).rows.length = (cleaned df).rows.length :=
    length_rows_setCol _ _ hlenMA
  have hg1MA : getCol (withMA (cleaned df) w) "MA" =
      (rollingMean w (closeVals (cleaned df))).map ofOption :=
    getCol_setCol_self hwf0 hlenMA
  have hg1req : ∀ n ∈ requiredCols, getCol (withMA (cleaned df) w) n = getCol (cleaned df) n := by
    intro n hn
    exact getCol_setCol_ne hwf0 hlenMA (requiredCols_ne_indicators n hn).1 (hreq0 n hn)
  have hmem1 : ∀ n ∈ (cleaned df).cols, n ∈ (withMA (cleaned df) w).cols := by
    intro n hn
    exact mem_cols_setCol _ _ hn
  have hmem1MA : "MA" ∈ (withMA (cleaned df) w).cols := mem_cols_setCol_self _ _ _
  have hcv1 : closeVals (withMA (cleaned df) w) = closeVals (cleaned df) := by
    unfold closeVals
    rw [hg1req "Close" (by simp [requiredCols])]
  -- stage 2: the STD column (line 38)
  have hlenSTD : ((rollingStd w (closeVals (withMA (cleaned df) w))).map ofOption).length =
      (withMA (cleaned df) w).rows.length := by
    simp [length_rollingStd, length_closeVals, hcv1, hrows1]
  have hwf2 : WF (withSTD (withMA (cleaned df) w) w) := WF_setCol hwf1 hlenSTD
  have hrows2 : (withSTD (withMA (cleaned df) w) w).rows.length = (cleaned df).rows.length := by
    rw [withSTD, length_rows_setCol _ _ hlenSTD, hrows1]
  have hg2STD : getCol (withSTD (withMA (cleaned df) w) w) "STD" =
      (rollingStd w (closeVals (cleaned df))).map ofOption := by
    rw [withSTD, getCol_setCol_self hwf1 hlenSTD, hcv1]
  have hg2MA : getCol (withSTD (withMA (cleaned df) w) w) "MA" =
      (rollingMean w (closeVals (cleaned df))).map ofOption := by
    rw [withSTD, getCol_setCol_ne hwf1 hlenSTD (by decide) hmem1MA, hg1MA]
  have hg2req : ∀ n ∈ requiredCols,
      getCol (withSTD (withMA (cleaned df) w) w) n = getCol (cleaned df) n := by
    intro n hn
    rw [withSTD, getCol_setCol_ne hwf1 hlenSTD (requiredCols_ne_indicators n hn).2.1
      (hmem1 n (hreq0 n hn)), hg1req n hn]
  have hmem2 : ∀ n ∈ (withMA (cleaned df) w).cols, n ∈ (withSTD (withMA (cleaned df) w) w).cols := by
    intro n hn
    exact mem_cols_setCol _ _ hn
  have hmem2STD : "STD" ∈ (withSTD (withMA (cleaned df) w) w).cols := mem_cols_setCol_self _ _ _
  -- stage 3: the Upper column (line 41)
  have hlenUp : (List.zipWith cellAdd (getCol (withSTD (withMA (cleaned df) w) w) "MA")
      ((getCol (withSTD (withMA (cleaned df) w) w) "STD").map (cellSMul m))).length =
      (withSTD (withMA (cleaned df) w) w).rows.length := by
    simp [length_getCol]
  have hwf3 : WF (withUpper (withSTD (withMA (cleaned df) w) w) m) := WF_setCol hwf2 hlenUp
  have hrows3 : (withUpper (withSTD (withMA (cleaned df) w) w) m).rows.length =
      (cleaned df).rows.length := by
    rw [withUpper, length_rows_setCol _ _ hlenUp, hrows2]
  have hg3Up : getCol (withUpper (withSTD (withMA (cleaned df) w) w) m) "Upper" =
      List.zipWith cellAdd ((rollingMean w (closeVals (cleaned df))).map ofOption)
        (((rollingStd w (closeVals (cleaned df))).map ofOption).map (cellSMul m)) := by
    rw [withUpper, getCol_setCol_self hwf2 hlenUp, hg2MA, hg2STD]
  have hg3MA : getCol (withUpper (withSTD (withMA (cleaned df) w) w) m) "MA" =
      (rollingMean w (closeVals (cleaned df))).map ofOption := by
    rw [withUpper, getCol_setCol_ne hwf2 hlenUp (by decide) (hmem2 _ hmem1MA), hg2MA]
  have hg3STD : getCol (withUpper (withSTD (withMA (cleaned df) w) w) m) "STD" =
      (rollingStd w (closeVals (cleaned df))).map ofOption := by
    rw [withUpper, getCol_setCol_ne hwf2 hlenUp (by decide) hmem2STD, hg2STD]
  have hg3req : ∀ n ∈ requiredCols,
      getCol (withUpper (withSTD (withMA (cleaned df) w) w) m) n = getCol (cleaned df) n := by
    intro n hn
    rw [withUpper, getCol_setCol_ne hwf2 hlenUp (requiredCols_ne_indicators n hn).2.2.1
      (hmem2 n (hmem1 n (hreq0 n hn))), hg2req n hn]
  have hmem3 : ∀ n ∈ (withSTD (withMA (cleaned df) w) w).cols,
      n ∈ (withUpper (withSTD (withMA (cleaned df) w) w) m).cols := by
    intro n hn
    exact mem_cols_setCol _ _ hn
  have hmem3Up : "Upper" ∈ (withUpper (withSTD (withMA (cleaned df) w) w) m).cols :=
    mem_cols_setCol_self _ _ _
  -- stage 4: the Lower column (line 42)
  have hlenLo : (List.zipWith cellSub (getCol (withUpper (withSTD (withMA (cleaned df) w) w) m) "MA")
      ((getCol (withUpper (withSTD (withMA (cleaned df) w) w) m) "STD").map (cellSMul m))).length =
      (withUpper (withSTD (withMA (cleaned df) w) w) m).rows.length := by
    simp [length_getCol]
  have hwf4 : WF (augment df w m) := WF_setCol hwf3 hlenLo
  have hrows4 : (augment df w m).rows.length = (cleaned df).rows.length := by
    rw [augment, withLower, length_rows_setCol _ _ hlenLo, hrows3]
  have hg4Lo : getCol (augment df w m) "Lower" =
      List.zipWith cellSub ((rollingMean w (closeVals (cleaned df))).map ofOption)
        (((rollingStd w (closeVals (cleaned df))).map ofOption).map (cellSMul m)) := by
    rw [augment, withLower, getCol_setCol_self hwf3 hlenLo, hg3MA, hg3STD]
  have hg4MA : getCol (augment df w m) "MA" =
      (rollingMean w (closeVals (cleaned df))).map ofOption := by
    rw [augment, withLower, getCol_setCol_ne hwf3 hlenLo (by decide)
      (hmem3 _ (hmem2 _ hmem1MA)), hg3MA]
  have hg4STD : getCol (augment df w m) "STD" =
      (rollingStd w (closeVals (cleaned df))).map ofOption := by
    rw [augment, withLower, getCol_setCol_ne hwf3 hlenLo (by decide)
      (hmem3 _ hmem2STD), hg3STD]
  have hg4Up : getCol (augment df w m) "Upper" =
      List.zipWith cellAdd ((rollingMean w (closeVals (cleaned df))).map ofOption)
        (((rollingStd w (closeVals (cleaned df))).map ofOption).map (cellSMul m)) := by
    rw [augment, withLower, getCol_setCol_ne hwf3 hlenLo (by decide) hmem3Up, hg3Up]
  have hg4req : ∀ n ∈ requiredCols, getCol (augment df w m) n = getCol (cleaned df) n := by
    intro n hn
    rw [augment, withLower, getCol_setCol_ne hwf3 hlenLo (requiredCols_ne_indicators n hn).2.2.2
      (hmem3 n (hmem2 n (hmem1 n (hreq0 n hn)))), hg3req n hn]
  have hmem4 : ∀ n ∈ (withUpper (withSTD (withMA (cleaned df) w) w) m).cols,
      n ∈ (augment df w m).cols := by
    intro n hn
    exact mem_cols_setCol _ _ hn
  have hmem4Lo : "Lower" ∈ (augment df w m).cols := mem_cols_setCol_self _ _ _
  exact ⟨hg4MA, hg4STD, hg4Up, hg4Lo, hg4req, hwf4, hrows4,
    fun n hn => hmem4 n (hmem3 n (hmem2 n (hmem1 n (hdf0 n hn)))),
    hmem4 _ (hmem3 _ (hmem2 _ hmem1MA)), hmem4 _ (hmem3 _ hmem2STD),
    hmem4 _ hmem3Up, hmem4Lo⟩

/-! ## Pointwise description of the rolling columns -/

theorem window_all_isSome {xs : List (Option ℝ)}
    (hall : ∀ o ∈ xs, o.isSome = true) (k w : ℕ) :
    ((xs.drop k).take w).all Option.isSome = true := by
  rw [List.all_eq_true]
  intro o ho
  exact hall o (List.drop_subset _ _ (List.take_subset _ _ ho))

theorem cleanCloses_eq (df : DataFrame) :
    cleanCloses df = (closeVals (cleaned df)).map (fun o => o.getD 0) := by
  simp [cleanCloses, closeVals, List.map_map]

theorem rollingMeanCell_defined {w i : ℕ} {xs : List (Option ℝ)}
    (hw : w ≤ i + 1) (hi : i < xs.length) (hall : ∀ o ∈ xs, o.isSome = true) :
    rollingMeanCell w xs i =
      some (mean (windowSlice w i (xs.map (fun o => o.getD 0)))) := by
  have hcond : w ≤ i + 1 ∧ ((xs.drop (i + 1 - w)).take w).all Option.isSome :=
    ⟨hw, window_all_isSome hall _ _⟩
  unfold rollingMeanCell
  rw [if_pos hcond]
  congr 1
  unfold mean windowSlice
  rw [← List.map_drop, ← List.map_take, List.length_map,
    length_window hw hi xs rfl]

theorem rollingMeanCell_undefined {w i : ℕ} {xs : List (Option ℝ)}
    (hw : ¬ w ≤ i + 1) : rollingMeanCell w xs i = none := by
  unfold rollingMeanCell
  rw [if_neg (fun hc => hw hc.1)]

theorem plot_of_schemaOK {df : DataFrame} (w : ℕ) (m : ℝ) (hok : schemaOK df = true) :
    plot_bollinger_bands df w m = (.chart, augment df w m) := by
  simp [plot_bollinger_bands, hok]

/-- A small well-formed frame: one row of numeric cells under the five
required columns. -/
def sampleDF : DataFrame :=
  ⟨requiredCols, [[.num 10, .num 11, .num 9, .num 10, .num 100]]⟩

/-- A three-row well-formed frame with closes 2, 4, 6. -/
def sampleDF3 : DataFrame :=
  ⟨requiredCols,
    [[.num 1, .num 1, .num 1, .num 2, .num 1],
     [.num 1, .num 1, .num 1, .num 4, .num 1],
     [.num 1, .num 1, .num 1, .num 6, .num 1]]⟩

/-! ## C1 -/

/-- C1: for every price series and every window length w ≥ 1, the MA
column produced by `plot_bollinger_bands` is a number at position i iff
i ≥ w−1, and where defined it equals the arithmetic mean of the w close
values at positions i−w+1 .. i. -/
theorem C1_movingAverage_defined_iff_and_mean (df : DataFrame) (w : ℕ) (m : ℝ)
    (hwf : WF df) (hok : schemaOK df = true) (hw : 1 ≤ w)
    (i : ℕ) (hi : i < (plot_bollinger_bands df w m).2.rows.length) :
    ((cellAt (plot_bollinger_bands df w m).2 "MA" i).isNum = true ↔ w - 1 ≤ i) ∧
    (w - 1 ≤ i →
      cellAt (plot_bollinger_bands df w m).2 "MA" i =
        .num (mean (windowSlice w i (cleanCloses df)))) := by
  obtain ⟨hMA, -, -, -, -, -, hrowsA, -⟩ := augment_facts df w m hwf hok
  rw [plot_of_schemaOK w m hok] at hi ⊢
  simp only at hi ⊢
  have hi' : i < (closeVals (cleaned df)).length := by
    rw [length_closeVals]
    rw [hrowsA] at hi
    exact hi
  have hall := closeVals_cleaned_isSome hwf hok
  have hcell : cellAt (augment df w m) "MA" i =
      ofOption (rollingMeanCell w (closeVals (cleaned df)) i) := by
    rw [cellAt, hMA,
      List.getD_eq_getElem _ _ (by simpa [length_rollingMean] using hi')]
    simp [getElem_rollingMean]
  constructor
  · constructor
    · intro hnum
      by_contra hlt
      have hnle : ¬ w ≤ i + 1 := by omega
      rw [hcell, rollingMeanCell_undefined hnle] at hnum
      simp [ofOption, Cell.isNum] at hnum
    · intro hle
      have hle' : w ≤ i + 1 := by omega
      rw [hcell, rollingMeanCell_defined hle' hi' hall]
      simp [ofOption, Cell.isNum]
  · intro hle
    have hle' : w ≤ i + 1 := by omega
    rw [hcell, rollingMeanCell_defined hle' hi' hall, cleanCloses_eq]
    simp [ofOption]

/-- C1 applied at a concrete frame: window 1, one data row, position 0. -/
theorem C1_witness :
    (WF sampleDF ∧ schemaOK sampleDF = true ∧ (1 : ℕ) ≤ 1 ∧
      0 < (plot_bollinger_bands sampleDF 1 2).2.rows.length) ∧
    (((cellAt (plot_bollinger_bands sampleDF 1 2).2 "MA" 0).isNum = true ↔ 1 - 1 ≤ 0) ∧
      (1 - 1 ≤ 0 →
        cellAt (plot_bollinger_bands sampleDF 1 2).2 "MA" 0 =
          .num (mean (windowSlice 1 0 (cleanCloses sampleDF))))) := by
  have hwf : WF sampleDF := by
    constructor
    · intro r hr
      simp only [sampleDF] at hr
      simp at hr
      simp [hr, sampleDF, requiredCols]
    · decide
  have hok : schemaOK sampleDF = true := by decide
  have hi : 0 < (plot_bollinger_bands sampleDF 1 2).2.rows.length := by
    obtain ⟨-, -, -, -, -, -, hrowsA, -⟩ := augment_facts sampleDF 1 2 hwf hok
    rw [plot_of_schemaOK 1 2 hok]
    simp only [hrowsA]
    rw [show (cleaned sampleDF).rows.length = 1 from by
      simp [cleaned, dropna, coerce, sampleDF, requiredCols, coerceRow, rowOK,
        ofOption, Cell.toNumeric, Cell.isNA]]
    omega
  exact ⟨⟨hwf, hok, le_refl 1, hi⟩,
    C1_movingAverage_defined_iff_and_mean sampleDF 1 2 hwf hok (le_refl 1) 0 hi⟩

/-! ## C3 -/

theorem cellAt_eq_getElem {df : DataFrame} {name : String} {vals : List Cell}
    (h : getCol df name = vals) {i : ℕ} (hi : i < vals.length) :
    cellAt df name i = vals[i] := by
  rw [cellAt, h, List.getD_eq_getElem _ _ hi]

theorem cellAt_eq_nan {df : DataFrame} {name : String} {i : ℕ}
    (h : (getCol df name).length ≤ i) : cellAt df name i = .nan := by
  rw [cellAt, List.getD_eq_default _ _ h]

theorem cellAdd_smul_isNum (a b : Cell) (m : ℝ) :
    (cellAdd a (cellSMul m b)).isNum = (a.isNum && b.isNum) := by
  cases a <;> cases b <;> rfl

theorem cellSub_smul_isNum (a b : Cell) (m : ℝ) :
    (cellSub a (cellSMul m b)).isNum = (a.isNum && b.isNum) := by
  cases a <;> cases b <;> rfl

theorem isNum_iff_num {c : Cell} : c.isNum = true ↔ ∃ x : ℝ, c = .num x := by
  cases c <;> simp [Cell.isNum]

theorem band_cells (df : DataFrame) (w : ℕ) (m : ℝ)
    (hwf : WF df) (hok : schemaOK df = true) (i : ℕ) :
    cellAt (augment df w m) "Upper" i =
      cellAdd (cellAt (augment df w m) "MA" i)
        (cellSMul m (cellAt (augment df w m) "STD" i)) ∧
    cellAt (augment df w m) "Lower" i =
      cellSub (cellAt (augment df w m) "MA" i)
        (cellSMul m (cellAt (augment df w m) "STD" i)) := by
  obtain ⟨hMA, hSTD, hUp, hLo, -, -, -, -⟩ := augment_facts df w m hwf hok
  have hlenM : ((rollingMean w (closeVals (cleaned df))).map ofOption).length =
      (closeVals (cleaned df)).length := by
    simp [length_rollingMean]
  have hlenS : ((rollingStd w (closeVals (cleaned df))).map ofOption).length =
      (closeVals (cleaned df)).length := by
    simp [length_rollingStd]
  by_cases hi : i < (closeVals (cleaned df)).length
  · have hiU : i < (List.zipWith cellAdd ((rollingMean w (closeVals (cleaned df))).map ofOption)
        (((rollingStd w (closeVals (cleaned df))).map ofOption).map (cellSMul m))).length := by
      simp only [List.length_zipWith, List.length_map, length_rollingMean, length_rollingStd]
      omega
    have hiL : i < (List.zipWith cellSub ((rollingMean w (closeVals (cleaned df))).map ofOption)
        (((rollingStd w (closeVals (cleaned df))).map ofOption).map (cellSMul m))).length := by
      simp only [List.length_zipWith, List.length_map, length_rollingMean, length_rollingStd]
      omega
    rw [cellAt_eq_getElem hUp hiU, cellAt_eq_getElem hLo hiL,
      cellAt_eq_getElem hMA (by simpa [length_rollingMean] using hi),
      cellAt_eq_getElem hSTD (by simpa [length_rollingStd] using hi),
      List.getElem_zipWith, List.getElem_zipWith]
    constructor <;> simp
  · push_neg at hi
    have hU0 : cellAt (augment df w m) "Upper" i = .nan := cellAt_eq_nan (by
      rw [hUp]
      simp only [List.length_zipWith, List.length_map, length_rollingMean, length_rollingStd]
      omega)
    have hL0 : cellAt (augment df w m) "Lower" i = .nan := cellAt_eq_nan (by
      rw [hLo]
      simp only [List.length_zipWith, List.length_map, length_rollingMean, length_rollingStd]
      omega)
    have hM0 : cellAt (augment df w m) "MA" i = .nan := cellAt_eq_nan (by
      rw [hMA]
      simp only [List.length_map, length_rollingMean]
      omega)
    have hS0 : cellAt (augment df w m) "STD" i = .nan := cellAt_eq_nan (by
      rw [hSTD]
      simp only [List.length_map, length_rollingStd]
      omega)
    rw [hU0, hL0, hM0, hS0]
    exact ⟨rfl, rfl⟩

/-- C3: each band cell is the moving average plus (resp. minus) the
multiplier times the rolling standard deviation; a band cell is a number
exactly when both the MA and STD cells are; and wherever both bands are
defined, upper − lower = 2·m·std. -/
theorem C3_band_relations (df : DataFrame) (w : ℕ) (m : ℝ)
    (hwf : WF df) (hok : schemaOK df = true) (hw : 1 ≤ w) (i : ℕ) :
    ((cellAt (plot_bollinger_bands df w m).2 "Upper" i).isNum = true ↔
      (cellAt (plot_bollinger_bands df w m).2 "MA" i).isNum = true ∧
      (cellAt (plot_bollinger_bands df w m).2 "STD" i).isNum = true) ∧
    ((cellAt (plot_bollinger_bands df w m).2 "Lower" i).isNum = true ↔
      (cellAt (plot_bollinger_bands df w m).2 "MA" i).isNum = true ∧
      (cellAt (plot_bollinger_bands df w m).2 "STD" i).isNum = true) ∧
    (∀ a s : ℝ, cellAt (plot_bollinger_bands df w m).2 "MA" i = .num a →
      cellAt (plot_bollinger_bands df w m).2 "STD" i = .num s →
      cellAt (plot_bollinger_bands df w m).2 "Upper" i = .num (a + m * s) ∧
      cellAt (plot_bollinger_bands df w m).2 "Lower" i = .num (a - m * s)) ∧
    (∀ u l : ℝ, cellAt (plot_bollinger_bands df w m).2 "Upper" i = .num u →
      cellAt (plot_bollinger_bands df w m).2 "Lower" i = .num l →
      ∃ s : ℝ, cellAt (plot_bollinger_bands df w m).2 "STD" i = .num s ∧
        u - l = 2 * m * s) := by
  rw [plot_of_schemaOK w m hok]
  simp only
  obtain ⟨hup, hlo⟩ := band_cells df w m hwf hok i
  refine ⟨?_, ?_, ?_, ?_⟩
  · rw [hup, cellAdd_smul_isNum]
    simp
  · rw [hlo, cellSub_smul_isNum]
    simp
  · intro a s hA hS
    rw [hup, hlo, hA, hS]
    exact ⟨rfl, rfl⟩
  · intro u l hU hL
    have hnum : (cellAt (augment df w m) "MA" i).isNum = true ∧
        (cellAt (augment df w m) "STD" i).isNum = true := by
      have : (cellAt (augment df w m) "Upper" i).isNum = true := by
        rw [hU]; rfl
      rw [hup, cellAdd_smul_isNum] at this
      simpa using this
    obtain ⟨a, hA⟩ := isNum_iff_num.mp hnum.1
    obtain ⟨s, hS⟩ := isNum_iff_num.mp hnum.2
    refine ⟨s, hS, ?_⟩
    rw [hup, hA, hS] at hU
    rw [hlo, hA, hS] at hL
    have hu : u = a + m * s := by
      simpa [cellAdd, cellSMul] using hU.symm
    have hl : l = a - m * s := by
      simpa [cellSub, cellSMul] using hL.symm
    rw [hu, hl]
    ring

/-- C3 applied at a concrete frame, window 20, multiplier 2, position 0. -/
theorem C3_witness :
    (WF sampleDF ∧ schemaOK sampleDF = true ∧ (1 : ℕ) ≤ 20) ∧
    (((cellAt (plot_bollinger_bands sampleDF 20 2).2 "Upper" 0).isNum = true ↔
      (cellAt (plot_bollinger_bands sampleDF 20 2).2 "MA" 0).isNum = true ∧
      (cellAt (plot_bollinger_bands sampleDF 20 2).2 "STD" 0).isNum = true) ∧
    ((cellAt (plot_bollinger_bands sampleDF 20 2).2 "Lower" 0).isNum = true ↔
      (cellAt (plot_bollinger_bands sampleDF 20 2).2 "MA" 0).isNum = true ∧
      (cellAt (plot_bollinger_bands sampleDF 20 2).2 "STD" 0).isNum = true) ∧
    (∀ a s : ℝ, cellAt (plot_bollinger_bands sampleDF 20 2).2 "MA" 0 = .num a →
      cellAt (plot_bollinger_bands sampleDF 20 2).2 "STD" 0 = .num s →
      cellAt (plot_bollinger_bands sampleDF 20 2).2 "Upper" 0 = .num (a + 2 * s) ∧
      cellAt (plot_bollinger_bands sampleDF 20 2).2 "Lower" 0 = .num (a - 2 * s)) ∧
    (∀ u l : ℝ, cellAt (plot_bollinger_bands sampleDF 20 2).2 "Upper" 0 = .num u →
      cellAt (plot_bollinger_bands sampleDF 20 2).2 "Lower" 0 = .num l →
      ∃ s : ℝ, cellAt (plot_bollinger_bands sampleDF 20 2).2 "STD" 0 = .num s ∧
        u - l = 2 * 2 * s)) := by
  have hwf : WF sampleDF := by
    constructor
    · intro r hr
      simp only [sampleDF] at hr
      simp at hr
      simp [hr, sampleDF, requiredCols]
    · decide
  have hok : schemaOK sampleDF = true := by decide
  exact ⟨⟨hwf, hok, by omega⟩, C3_band_relations sampleDF 20 2 hwf hok (by omega) 0⟩

/-! ## C2 -/

theorem rollingStdCell_defined {w i : ℕ} {xs : List (Option ℝ)}
    (hw2 : 2 ≤ w) (hw : w ≤ i + 1) (hi : i < xs.length)
    (hall : ∀ o ∈ xs, o.isSome = true) :
    rollingStdCell w xs i =
      some (sampleStd (windowSlice w i (xs.map (fun o => o.getD 0)))) := by
  have hcond : 2 ≤ w ∧ w ≤ i + 1 ∧ ((xs.drop (i + 1 - w)).take w).all Option.isSome :=
    ⟨hw2, hw, window_all_isSome hall _ _⟩
  unfold rollingStdCell
  rw [if_pos hcond]
  congr 1
  unfold sampleStd mean windowSlice
  rw [← List.map_drop, ← List.map_take, List.length_map,
    length_window hw hi xs rfl]

theorem rollingStdCell_undefined_of_small_window {w i : ℕ} {xs : List (Option ℝ)}
    (hw2 : ¬ 2 ≤ w) : rollingStdCell w xs i = none := by
  unfold rollingStdCell
  rw [if_neg (fun hc => hw2 hc.1)]

theorem rollingStdCell_undefined_of_short {w i : ℕ} {xs : List (Option ℝ)}
    (hw : ¬ w ≤ i + 1) : rollingStdCell w xs i = none := by
  unfold rollingStdCell
  rw [if_neg (fun hc => hw hc.2.1)]

/-- C2, counterexample to the claim as stated: with window w = 1 the STD
cell at position 0 of a one-row frame is NaN (pandas sample std has
divisor w − 1 = 0), although the claim asserts it is defined there
(0 ≥ w − 1). -/
theorem C2_counterexample :
    0 < (plot_bollinger_bands sampleDF 1 1).2.rows.length ∧
    ¬ (((cellAt (plot_bollinger_bands sampleDF 1 1).2 "STD" 0).isNum = true) ↔
        1 - 1 ≤ (0 : ℕ)) := by
  have hwf : WF sampleDF := by
    constructor
    · intro r hr
      simp only [sampleDF] at hr
      simp at hr
      simp [hr, sampleDF, requiredCols]
    · decide
  have hok : schemaOK sampleDF = true := by decide
  obtain ⟨-, hSTD, -, -, -, -, hrowsA, -⟩ := augment_facts sampleDF 1 1 hwf hok
  have hclean : (cleaned sampleDF).rows.length = 1 := by
    simp [cleaned, dropna, coerce, sampleDF, requiredCols, coerceRow, rowOK,
      ofOption, Cell.toNumeric, Cell.isNA]
  rw [plot_of_schemaOK 1 1 hok]
  simp only
  constructor
  · rw [hrowsA, hclean]
    omega
  · have hcv : (closeVals (cleaned sampleDF)).length = 1 := by
      rw [length_closeVals, hclean]
    have hcell : cellAt (augment sampleDF 1 1) "STD" 0 =
        ofOption (rollingStdCell 1 (closeVals (cleaned sampleDF)) 0) := by
      rw [cellAt_eq_getElem hSTD (by simp [length_rollingStd, hcv])]
      simp [getElem_rollingStd]
    rw [hcell, rollingStdCell_undefined_of_small_window (by omega)]
    simp [ofOption, Cell.isNum]

/-- C2 (amended to window ≥ 2): the STD column produced by
`plot_bollinger_bands` is a number at position i iff i ≥ w−1, and where
defined it equals the sample standard deviation (divisor w−1) of the w
trailing close values; and in the scenario window = 5, multiplier = 1 on
a series of 10 distinct closes, the upper band at position 9 is the mean
of closes 5..9 plus the sample standard deviation of closes 5..9 with
divisor 4. -/
theorem C2_rolling_std (df : DataFrame) (w : ℕ) (m : ℝ)
    (hwf : WF df) (hok : schemaOK df = true) (hw : 2 ≤ w)
    (i : ℕ) (hi : i < (plot_bollinger_bands df w m).2.rows.length) :
    (((cellAt (plot_bollinger_bands df w m).2 "STD" i).isNum = true) ↔ w - 1 ≤ i) ∧
    (w - 1 ≤ i →
      cellAt (plot_bollinger_bands df w m).2 "STD" i =
        .num (sampleStd (windowSlice w i (cleanCloses df)))) ∧
    (w = 5 → m = 1 → i = 9 → (cleanCloses df).length = 10 →
      (cleanCloses df).Pairwise (· ≠ ·) →
      cellAt (plot_bollinger_bands df w m).2 "Upper" 9 =
        .num (mean (windowSlice 5 9 (cleanCloses df)) +
          Real.sqrt ((((windowSlice 5 9 (cleanCloses df)).map
            (fun x => (x - mean (windowSlice 5 9 (cleanCloses df))) ^ 2)).sum) / 4))) := by
  obtain ⟨hMA, hSTD, -, -, -, -, hrowsA, -⟩ := augment_facts df w m hwf hok
  rw [plot_of_schemaOK w m hok] at hi ⊢
  simp only at hi ⊢
  have hi' : i < (closeVals (cleaned df)).length := by
    rw [length_closeVals]
    rw [hrowsA] at hi
    exact hi
  have hall := closeVals_cleaned_isSome hwf hok
  have hcell : cellAt (augment df w m) "STD" i =
      ofOption (rollingStdCell w (closeVals (cleaned df)) i) := by
    rw [cellAt_eq_getElem hSTD (by simpa [length_rollingStd] using hi')]
    simp [getElem_rollingStd]
  refine ⟨⟨?_, ?_⟩, ?_, ?_⟩
  · intro hnum
    by_contra hlt
    have hnle : ¬ w ≤ i + 1 := by omega
    rw [hcell, rollingStdCell_undefined_of_short hnle] at hnum
    simp [ofOption, Cell.isNum] at hnum
  · intro hle
    have hle' : w ≤ i + 1 := by omega
    rw [hcell, rollingStdCell_defined hw hle' hi' hall]
    simp [ofOption, Cell.isNum]
  · intro hle
    have hle' : w ≤ i + 1 := by omega
    rw [hcell, rollingStdCell_defined hw hle' hi' hall, cleanCloses_eq]
    simp [ofOption]
  · rintro rfl rfl rfl hlen10 -
    obtain ⟨hupB, -⟩ := band_cells df 5 1 hwf hok 9
    have hcellMA : cellAt (augment df 5 1) "MA" 9 =
        ofOption (rollingMeanCell 5 (closeVals (cleaned df)) 9) := by
      rw [cellAt_eq_getElem hMA (by simpa [length_rollingMean] using hi')]
      simp [getElem_rollingMean]
    have hma9 : cellAt (augment df 5 1) "MA" 9 =
        .num (mean (windowSlice 5 9 (cleanCloses df))) := by
      rw [hcellMA, rollingMeanCell_defined (by omega) hi' hall, cleanCloses_eq]
      simp [ofOption]
    have hstd9 : cellAt (augment df 5 1) "STD" 9 =
        .num (sampleStd (windowSlice 5 9 (cleanCloses df))) := by
      rw [hcell, rollingStdCell_defined hw (by omega) hi' hall, cleanCloses_eq]
      simp [ofOption]
    rw [hupB, hma9, hstd9]
    have hslice : (windowSlice 5 9 (cleanCloses df)).length = 5 := by
      simp only [windowSlice, List.length_take, List.length_drop, hlen10]
      omega
    simp only [cellSMul, cellAdd, one_mul, Cell.num.injEq]
    congr 1
    unfold sampleStd
    rw [hslice]
    norm_num

/-- C2 (amended) applied at a concrete frame: window 2, one-column data
of three rows, position 1. -/
theorem C2_witness :
    (WF sampleDF3 ∧ schemaOK sampleDF3 = true ∧ (2 : ℕ) ≤ 2 ∧
      1 < (plot_bollinger_bands sampleDF3 2 1).2.rows.length) ∧
    ((((cellAt (plot_bollinger_bands sampleDF3 2 1).2 "STD" 1).isNum = true) ↔ 2 - 1 ≤ 1) ∧
      (2 - 1 ≤ 1 →
        cellAt (plot_bollinger_bands sampleDF3 2 1).2 "STD" 1 =
          .num (sampleStd (windowSlice 2 1 (cleanCloses sampleDF3)))) ∧
      ((2 : ℕ) = 5 → (1 : ℝ) = 1 → (1 : ℕ) = 9 → (cleanCloses sampleDF3).length = 10 →
        (cleanCloses sampleDF3).Pairwise (· ≠ ·) →
        cellAt (plot_bollinger_bands sampleDF3 2 1).2 "Upper" 9 =
          .num (mean (windowSlice 5 9 (cleanCloses sampleDF3)) +
            Real.sqrt ((((windowSlice 5 9 (cleanCloses sampleDF3)).map
              (fun x => (x - mean (windowSlice 5 9 (cleanCloses sampleDF3))) ^ 2)).sum) / 4)))) := by
  have hwf : WF sampleDF3 := by
    constructor
    · intro r hr
      simp only [sampleDF3] at hr
      simp at hr
      rcases hr with hr | hr | hr <;> simp [hr, sampleDF3, requiredCols]
    · decide
  have hok : schemaOK sampleDF3 = true := by decide
  have hi : 1 < (plot_bollinger_bands sampleDF3 2 1).2.rows.length := by
    obtain ⟨-, -, -, -, -, -, hrowsA, -⟩ := augment_facts sampleDF3 2 1 hwf hok
    rw [plot_of_schemaOK 2 1 hok]
    simp only [hrowsA]
    rw [show (cleaned sampleDF3).rows.length = 3 from by
      simp [cleaned, dropna, coerce, sampleDF3, requiredCols, coerceRow, rowOK,
        ofOption, Cell.toNumeric, Cell.isNA]]
    omega
  exact ⟨⟨hwf, hok, le_refl 2, hi⟩,
    C2_rolling_std sampleDF3 2 1 hwf hok (le_refl 2) 1 hi⟩

/-! ## Identity lemmas: re-running the pipeline changes nothing -/

theorem map_id_of_mem {α : Type} {l : List α} {f : α → α}
    (h : ∀ a ∈ l, f a = a) : l.map f = l := by
  induction l with
  | nil => rfl
  | cons x xs ih => simp [h x (by simp), ih fun a ha => h a (by simp [ha])]

theorem set_getD_self {α : Type} : ∀ (l : List α) (j : ℕ) (d : α),
    l.set j (l.getD j d) = l
  | [], _, _ => rfl
  | _ :: _, 0, _ => rfl
  | x :: xs, j + 1, d => by
    simp only [List.getD_cons_succ, List.set_cons_succ, set_getD_self xs j d]

theorem ofOption_toNumeric_of_isNum {c : Cell} (h : c.isNum = true) :
    ofOption c.toNumeric = c := by
  cases c <;> simp [Cell.isNum] at h ⊢ <;> rfl

theorem isNA_eq_false_of_isNum {c : Cell} (h : c.isNum = true) :
    c.isNA = false := by
  cases c <;> simp [Cell.isNum] at h ⊢ <;> rfl

theorem coerceRow_eq_self : ∀ (cols : List String) (r : List Cell),
    (∀ j, j < cols.length → cols.getD j "" ∈ requiredCols →
      ofOption ((r.getD j .nan).toNumeric) = r.getD j .nan) →
    coerceRow cols r = r
  | [], r, _ => rfl
  | _ :: _, [], _ => rfl
  | c :: cs, x :: xs, h => by
    have htail : coerceRow cs xs = xs :=
      coerceRow_eq_self cs xs fun j hj hcj => by
        simpa using h (j + 1) (by simpa using hj) (by simpa using hcj)
    by_cases hc : c ∈ requiredCols
    · have hhead := h 0 (by simp) (by simpa using hc)
      simp only [List.getD_cons_zero] at hhead
      simp [coerceRow, hc, hhead, htail]
    · simp [coerceRow, hc, htail]

theorem coerce_eq_self {df : DataFrame} (hwf : WF df)
    (hnum : ∀ n ∈ requiredCols, ∀ c ∈ getCol df n, c.isNum = true) :
    coerce df = df := by
  obtain ⟨cols, rows⟩ := df
  unfold coerce
  simp only [DataFrame.mk.injEq, true_and]
  apply map_id_of_mem
  intro r hr
  apply coerceRow_eq_self
  intro j hj hcj
  rw [List.getD_eq_getElem _ _ hj] at hcj
  have hidx : cols.indexOf cols[j] = j := List.indexOf_getElem hwf.2 j hj
  have hcell : r.getD j .nan ∈ getCol ⟨cols, rows⟩ cols[j] := by
    unfold getCol
    simp only [hidx]
    exact List.mem_map_of_mem _ hr
  exact ofOption_toNumeric_of_isNum (hnum cols[j] hcj _ hcell)

theorem dropna_eq_self {df : DataFrame}
    (hnum : ∀ n ∈ requiredCols, ∀ c ∈ getCol df n, c.isNum = true) :
    dropna df = df := by
  obtain ⟨cols, rows⟩ := df
  unfold dropna
  simp only [DataFrame.mk.injEq, true_and]
  rw [List.filter_eq_self]
  intro r hr
  unfold rowOK
  rw [List.all_eq_true]
  intro n hn
  have hcell : r.getD (cols.indexOf n) .nan ∈ getCol ⟨cols, rows⟩ n :=
    List.mem_map_of_mem _ hr
  rw [isNA_eq_false_of_isNum (hnum n hn _ hcell)]
  rfl

theorem setCol_getCol_id {df : DataFrame} {name : String}
    (hwf : WF df) (hmem : name ∈ df.cols) :
    setCol df name (getCol df name) = df := by
  obtain ⟨cols, rows⟩ := df
  unfold setCol
  rw [if_pos hmem]
  simp only [DataFrame.mk.injEq, true_and]
  apply List.ext_getElem
  · simp [length_getCol]
  · intro i h1 h2
    simp only [List.getElem_map, List.getElem_zip, getCol]
    rw [set_getD_self]

/-! ## C4 -/

/-- C4: running the engine a second time on the (mutated) series it
produced yields exactly the same result and the same augmented series:
the recomputed MA/STD/Upper/Lower columns overwrite themselves with
identical values. -/
theorem C4_idempotent (df : DataFrame) (w : ℕ) (m : ℝ)
    (hwf : WF df) (hok : schemaOK df = true) (hw : 1 ≤ w) :
    plot_bollinger_bands ((plot_bollinger_bands df w m).2) w m =
      plot_bollinger_bands df w m := by
  obtain ⟨hMA, hSTD, hUp, hLo, hreq, hwfA, hrowsA, hmemdf, hmemMA, hmemSTD, hmemUp, hmemLo⟩ :=
    augment_facts df w m hwf hok
  have hokA : schemaOK (augment df w m) = true := by
    rw [schemaOK_iff]
    intro n hn
    exact hmemdf n (schemaOK_iff.mp hok n hn)
  have hnumA : ∀ n ∈ requiredCols, ∀ c ∈ getCol (augment df w m) n, c.isNum = true := by
    intro n hn c hc
    rw [hreq n hn] at hc
    exact required_cell_isNum hwf n hn (schemaOK_iff.mp hok n hn) c hc
  have hcleanA : cleaned (augment df w m) = augment df w m := by
    unfold cleaned
    rw [coerce_eq_self hwfA hnumA, dropna_eq_self hnumA]
  have hcvA : closeVals (augment df w m) = closeVals (cleaned df) := by
    unfold closeVals
    rw [hreq "Close" (by simp [requiredCols])]
  have hMA_A : withMA (augment df w m) w = augment df w m := by
    unfold withMA
    rw [hcvA, ← hMA]
    exact setCol_getCol_id hwfA hmemMA
  have hSTD_A : withSTD (augment df w m) w = augment df w m := by
    unfold withSTD
    rw [hcvA, ← hSTD]
    exact setCol_getCol_id hwfA hmemSTD
  have hUp_A : withUpper (augment df w m) m = augment df w m := by
    unfold withUpper
    rw [hMA, hSTD, ← hUp]
    exact setCol_getCol_id hwfA hmemUp
  have hLo_A : withLower (augment df w m) m = augment df w m := by
    unfold withLower
    rw [hMA, hSTD, ← hLo]
    exact setCol_getCol_id hwfA hmemLo
  have haug : augment (augment df w m) w m = augment df w m := by
    conv_lhs => rw [augment]
    rw [hcleanA, hMA_A, hSTD_A, hUp_A, hLo_A]
  rw [plot_of_schemaOK w m hok]
  simp only
  rw [plot_of_schemaOK w m hokA, haug]

/-- C4 applied at a concrete frame: three rows, window 2, multiplier 1. -/
theorem C4_witness :
    (WF sampleDF3 ∧ schemaOK sampleDF3 = true ∧ (1 : ℕ) ≤ 2) ∧
    plot_bollinger_bands ((plot_bollinger_bands sampleDF3 2 1).2) 2 1 =
      plot_bollinger_bands sampleDF3 2 1 := by
  have hwf : WF sampleDF3 := by
    constructor
    · intro r hr
      simp only [sampleDF3] at hr
      simp at hr
      rcases hr with hr | hr | hr <;> simp [hr, sampleDF3, requiredCols]
    · decide
  have hok : schemaOK sampleDF3 = true := by decide
  exact ⟨⟨hwf, hok, by omega⟩, C4_idempotent sampleDF3 2 1 hwf hok (by omega)⟩

/-! ## C5 -/

/-- A frame whose Volume field is missing. -/
def sampleDFmissing : DataFrame :=
  ⟨["Open", "High", "Low", "Close"], [[.num 1, .num 1, .num 1, .num 2]]⟩

/-- C5: when a required field is missing, `plot_bollinger_bands` reports
the schema error naming the actual columns present, returns no chart,
and leaves the frame untouched — no coercion, no dropping, no indicator
computation. -/
theorem C5_schema_error (df : DataFrame) (w : ℕ) (m : ℝ)
    (hbad : schemaOK df = false) :
    plot_bollinger_bands df w m = (.schemaError df.cols, df) := by
  simp [plot_bollinger_bands, hbad]

/-- C5 applied at a frame missing the Volume column. -/
theorem C5_witness :
    schemaOK sampleDFmissing = false ∧
    plot_bollinger_bands sampleDFmissing 20 2 =
      (.schemaError ["Open", "High", "Low", "Close"], sampleDFmissing) :=
  ⟨by decide, C5_schema_error sampleDFmissing 20 2 (by decide)⟩

/-! ## C6 -/

/-- Lines 33-34 in one equation: the frame the computation runs on
keeps exactly the rows whose required fields all coerce, in coerced
form. -/
theorem cleaned_rows_filter (df : DataFrame) (hok : schemaOK df = true) :
    (cleaned df).rows =
      (df.rows.filter (fun r => requiredCols.all
        (fun n => ((r.getD (df.cols.indexOf n) Cell.nan).toNumeric).isSome))).map
        (coerceRow df.cols) := by
  unfold cleaned dropna coerce
  simp only
  rw [List.filter_map]
  congr 1
  apply List.filter_congr
  intro r _
  exact rowOK_coerce_iff fun n hn => schemaOK_iff.mp hok n hn

/-- C6: before the indicator computation the engine coerces the five
required fields and drops exactly the rows in which some required field
fails numeric coercion; surviving rows are the coerced versions of the
rows whose five required fields all coerce.  The augmented frame keeps
exactly those rows. -/
theorem C6_coercion_and_drop (df : DataFrame) (w : ℕ) (m : ℝ)
    (hwf : WF df) (hok : schemaOK df = true) (hw : 1 ≤ w) :
    (cleaned df).rows =
      (df.rows.filter (fun r => requiredCols.all
        (fun n => ((r.getD (df.cols.indexOf n) Cell.nan).toNumeric).isSome))).map
        (coerceRow df.cols) ∧
    (plot_bollinger_bands df w m).2.rows.length =
      (df.rows.filter (fun r => requiredCols.all
        (fun n => ((r.getD (df.cols.indexOf n) Cell.nan).toNumeric).isSome))).length := by
  refine ⟨cleaned_rows_filter df hok, ?_⟩
  obtain ⟨-, -, -, -, -, -, hrowsA, -⟩ := augment_facts df w m hwf hok
  rw [plot_of_schemaOK w m hok]
  simp only [hrowsA, cleaned_rows_filter df hok, List.length_map]

/-- A frame in which the second row has a NaN close and the third an
unparseable close, while the fourth has a numeric text close. -/
def sampleDFbad : DataFrame :=
  ⟨requiredCols,
    [[.num 1, .num 1, .num 1, .num 2, .num 1],
     [.num 1, .num 1, .num 1, .nan, .num 1],
     [.num 1, .num 1, .num 1, .text none, .num 1],
     [.num 1, .num 1, .num 1, .text (some 7), .num 1]]⟩

/-- C6 applied at a frame with coercion failures in rows 2 and 3. -/
theorem C6_witness :
    (WF sampleDFbad ∧ schemaOK sampleDFbad = true ∧ (1 : ℕ) ≤ 2) ∧
    ((cleaned sampleDFbad).rows =
      (sampleDFbad.rows.filter (fun r => requiredCols.all
        (fun n => ((r.getD (sampleDFbad.cols.indexOf n) Cell.nan).toNumeric).isSome))).map
        (coerceRow sampleDFbad.cols) ∧
    (plot_bollinger_bands sampleDFbad 2 1).2.rows.length =
      (sampleDFbad.rows.filter (fun r => requiredCols.all
        (fun n => ((r.getD (sampleDFbad.cols.indexOf n) Cell.nan).toNumeric).isSome))).length) := by
  have hwf : WF sampleDFbad := by
    constructor
    · intro r hr
      simp only [sampleDFbad] at hr
      simp at hr
      rcases hr with hr | hr | hr | hr <;> simp [hr, sampleDFbad, requiredCols]
    · decide
  have hok : schemaOK sampleDFbad = true := by decide
  exact ⟨⟨hwf, hok, by omega⟩, C6_coercion_and_drop sampleDFbad 2 1 hwf hok (by omega)⟩

/-! ## C7 -/

/-- An empty fetch result: the provider returned no rows. -/
def emptyDF : DataFrame := ⟨requiredCols, []⟩

/-- C7: when the fetched frame is empty, the shell reports the
empty-dataset error and produces nothing else — no row count, no chart,
no summary. -/
theorem C7_empty_fetch (fetched : DataFrame) (w : ℕ) (m : ℝ)
    (he : fetched.isEmptyDF = true) :
    runShell fetched w m = .noData := by
  simp [runShell, he]

/-- C7 applied at an empty fetch result. -/
theorem C7_witness :
    emptyDF.isEmptyDF = true ∧ runShell emptyDF 20 2 = .noData :=
  ⟨by decide, C7_empty_fetch emptyDF 20 2 (by decide)⟩

/-! ## C8 -/

/-- C8: on a non-empty series shorter than the window, every row of the
augmented frame has all four indicator cells absent (NaN). -/
theorem C8_short_series (df : DataFrame) (w : ℕ) (m : ℝ)
    (hwf : WF df) (hok : schemaOK df = true) (hw : 1 ≤ w)
    (hne : df.rows ≠ []) (hshort : df.rows.length < w) (i : ℕ) :
    (cellAt (plot_bollinger_bands df w m).2 "MA" i).isNum = false ∧
    (cellAt (plot_bollinger_bands df w m).2 "STD" i).isNum = false ∧
    (cellAt (plot_bollinger_bands df w m).2 "Upper" i).isNum = false ∧
    (cellAt (plot_bollinger_bands df w m).2 "Lower" i).isNum = false := by
  obtain ⟨hMA, hSTD, hUp, hLo, -, -, -, -⟩ := augment_facts df w m hwf hok
  obtain ⟨hupc, hloc⟩ := band_cells df w m hwf hok i
  rw [plot_of_schemaOK w m hok]
  simp only
  have hcvlen : (closeVals (cleaned df)).length ≤ df.rows.length := by
    rw [length_closeVals]
    unfold cleaned dropna coerce
    simp only
    calc (List.filter (rowOK df.cols) (df.rows.map (coerceRow df.cols))).length
        ≤ (df.rows.map (coerceRow df.cols)).length := List.length_filter_le _ _
      _ = df.rows.length := List.length_map _ _
  have hM : cellAt (augment df w m) "MA" i = .nan := by
    by_cases hi : i < (closeVals (cleaned df)).length
    · rw [cellAt_eq_getElem hMA (by simpa [length_rollingMean] using hi)]
      simp only [List.getElem_map, getElem_rollingMean]
      rw [rollingMeanCell_undefined (by omega)]
      rfl
    · exact cellAt_eq_nan (by rw [hMA]; simp only [List.length_map, length_rollingMean]; omega)
  have hS : cellAt (augment df w m) "STD" i = .nan := by
    by_cases hi : i < (closeVals (cleaned df)).length
    · rw [cellAt_eq_getElem hSTD (by simpa [length_rollingStd] using hi)]
      simp only [List.getElem_map, getElem_rollingStd]
      rw [rollingStdCell_undefined_of_short (by omega)]
      rfl
    · exact cellAt_eq_nan (by rw [hSTD]; simp only [List.length_map, length_rollingStd]; omega)
  refine ⟨by rw [hM]; rfl, by rw [hS]; rfl, ?_, ?_⟩
  · rw [hupc, hM, hS]
    rfl
  · rw [hloc, hM, hS]
    rfl

/-- C8 applied at a three-row frame with window 5. -/
theorem C8_witness :
    (WF sampleDF3 ∧ schemaOK sampleDF3 = true ∧ (1 : ℕ) ≤ 5 ∧
      sampleDF3.rows ≠ [] ∧ sampleDF3.rows.length < 5) ∧
    ((cellAt (plot_bollinger_bands sampleDF3 5 2).2 "MA" 0).isNum = false ∧
     (cellAt (plot_bollinger_bands sampleDF3 5 2).2 "STD" 0).isNum = false ∧
     (cellAt (plot_bollinger_bands sampleDF3 5 2).2 "Upper" 0).isNum = false ∧
     (cellAt (plot_bollinger_bands sampleDF3 5 2).2 "Lower" 0).isNum = false) := by
  have hwf : WF sampleDF3 := by
    constructor
    · intro r hr
      simp only [sampleDF3] at hr
      simp at hr
      rcases hr with hr | hr | hr <;> simp [hr, sampleDF3, requiredCols]
    · decide
  have hok : schemaOK sampleDF3 = true := by decide
  have hne : sampleDF3.rows ≠ [] := by simp [sampleDF3]
  have hshort : sampleDF3.rows.length < 5 := by simp [sampleDF3]
  exact ⟨⟨hwf, hok, by omega, hne, hshort⟩,
    C8_short_series sampleDF3 5 2 hwf hok (by omega) hne hshort 0⟩

/-! ## C9 -/

/-- C9, counterexample to the claim as stated: the engine does mutate
the fetcher's output in place.  On a concrete schema-passing frame the
caller's frame after the call differs from the one passed in (it has
gained the MA column, among others). -/
theorem C9_counterexample :
    (plot_bollinger_bands sampleDF 20 2).2 ≠ sampleDF := by
  have hwf : WF sampleDF := by
    constructor
    · intro r hr
      simp only [sampleDF] at hr
      simp at hr
      simp [hr, sampleDF, requiredCols]
    · decide
  have hok : schemaOK sampleDF = true := by decide
  obtain ⟨-, -, -, -, -, -, -, -, hmemMA, -⟩ := augment_facts sampleDF 20 2 hwf hok
  rw [plot_of_schemaOK 20 2 hok]
  simp only
  intro h
  rw [h] at hmemMA
  exact absurd hmemMA (by decide)

/-- C9 (amended): the engine does have an externally observable side
effect on the fetcher's output: when the schema check passes it mutates
the caller's frame in place into the cleaned, augmented series; only
when the schema check fails is the frame left unchanged. -/
theorem C9_mutation (df : DataFrame) (w : ℕ) (m : ℝ) (hw : 1 ≤ w) :
    (schemaOK df = true → (plot_bollinger_bands df w m).2 = augment df w m) ∧
    (schemaOK df = false → (plot_bollinger_bands df w m).2 = df) := by
  constructor
  · intro hok
    rw [plot_of_schemaOK w m hok]
  · intro hbad
    simp [plot_bollinger_bands, hbad]

/-- C9 (amended) applied at a concrete schema-passing frame. -/
theorem C9_witness :
    ((1 : ℕ) ≤ 20 ∧ schemaOK sampleDF = true) ∧
    (plot_bollinger_bands sampleDF 20 2).2 = augment sampleDF 20 2 :=
  ⟨⟨by omega, by decide⟩, (C9_mutation sampleDF 20 2 (by omega)).1 (by decide)⟩

/-! ## C10 -/

/-- C10: after a successful run (nonempty fetch, schema check passed,
rows surviving the cleaning so the chart call can succeed), the shell's
summary values are read from the very frame the caller passed to
`plot_bollinger_bands`, which now carries the four indicator columns
and has the coercion-dropped rows removed. -/
theorem C10_inplace_summary (fetched : DataFrame) (w : ℕ) (m : ℝ)
    (hwf : WF fetched) (hok : schemaOK fetched = true) (hw : 1 ≤ w)
    (hne : fetched.isEmptyDF = false)
    (hclean : (cleaned fetched).rows ≠ []) :
    runShell fetched w m =
      .success fetched.rows.length
        (lastCell (plot_bollinger_bands fetched w m).2 "Close")
        (lastCell (plot_bollinger_bands fetched w m).2 "Upper")
        (lastCell (plot_bollinger_bands fetched w m).2 "MA")
        (lastCell (plot_bollinger_bands fetched w m).2 "Lower") ∧
    "MA" ∈ (plot_bollinger_bands fetched w m).2.cols ∧
    "STD" ∈ (plot_bollinger_bands fetched w m).2.cols ∧
    "Upper" ∈ (plot_bollinger_bands fetched w m).2.cols ∧
    "Lower" ∈ (plot_bollinger_bands fetched w m).2.cols ∧
    (plot_bollinger_bands fetched w m).2.rows.length =
      (fetched.rows.filter (fun r => requiredCols.all
        (fun n => ((r.getD (fetched.cols.indexOf n) Cell.nan).toNumeric).isSome))).length := by
  obtain ⟨-, -, -, -, -, -, hrowsA, -, hmemMA, hmemSTD, hmemUp, hmemLo⟩ :=
    augment_facts fetched w m hwf hok
  rw [plot_of_schemaOK w m hok]
  simp only
  refine ⟨?_, hmemMA, hmemSTD, hmemUp, hmemLo, ?_⟩
  · unfold runShell
    rw [plot_of_schemaOK w m hok]
    simp [hne]
  · rw [hrowsA, cleaned_rows_filter fetched hok, List.length_map]

/-- C10 applied at a concrete three-row frame. -/
theorem C10_witness :
    (WF sampleDF3 ∧ schemaOK sampleDF3 = true ∧ (1 : ℕ) ≤ 2 ∧
      sampleDF3.isEmptyDF = false ∧ (cleaned sampleDF3).rows ≠ []) ∧
    (runShell sampleDF3 2 1 =
      .success sampleDF3.rows.length
        (lastCell (plot_bollinger_bands sampleDF3 2 1).2 "Close")
        (lastCell (plot_bollinger_bands sampleDF3 2 1).2 "Upper")
        (lastCell (plot_bollinger_bands sampleDF3 2 1).2 "MA")
        (lastCell (plot_bollinger_bands sampleDF3 2 1).2 "Lower") ∧
    "MA" ∈ (plot_bollinger_bands sampleDF3 2 1).2.cols ∧
    "STD" ∈ (plot_bollinger_bands sampleDF3 2 1).2.cols ∧
    "Upper" ∈ (plot_bollinger_bands sampleDF3 2 1).2.cols ∧
    "Lower" ∈ (plot_bollinger_bands sampleDF3 2 1).2.cols ∧
    (plot_bollinger_bands sampleDF3 2 1).2.rows.length =
      (sampleDF3.rows.filter (fun r => requiredCols.all
        (fun n => ((r.getD (sampleDF3.cols.indexOf n) Cell.nan).toNumeric).isSome))).length) := by
  have hwf : WF sampleDF3 := by
    constructor
    · intro r hr
      simp only [sampleDF3] at hr
      simp at hr
      rcases hr with hr | hr | hr <;> simp [hr, sampleDF3, requiredCols]
    · decide
  have hok : schemaOK sampleDF3 = true := by decide
  have hne : sampleDF3.isEmptyDF = false := by decide
  have hclean : (cleaned sampleDF3).rows ≠ [] := by
    simp [cleaned, dropna, coerce, sampleDF3, requiredCols, coerceRow, rowOK,
      ofOption, Cell.toNumeric, Cell.isNA]
  exact ⟨⟨hwf, hok, by omega, hne, hclean⟩,
    C10_inplace_summary sampleDF3 2 1 hwf hok (by omega) hne hclean⟩

end BBand
